import Mathlib

/-!
Verification of the apm-aggregation repository against its natural-language
specification.  The first part embeds
`src/aggregators/internal/telemetry/metrics.go` (the `telemetry` package):
instrument creation by `NewMetrics`, the registered pebble-statistics
callback, and `CleanUp`.  The second part models, from the specification,
the metric-value merge algebra, serialization, and the harvester protocol,
whose source files are not part of the provided sources.
-/

namespace Telemetry

/-- The kind of an OpenTelemetry instrument created by `NewMetrics`:
`Int64Counter`, `Int64ObservableCounter` or `Int64ObservableGauge`. -/
inductive InstrumentKind where
  | syncCounter
  | asyncCounter
  | asyncGauge
deriving DecidableEq

/-- An instrument as created by the meter: its kind and its registered name.
The description and unit strings do not influence any claimed behaviour and
are omitted. -/
structure Instrument where
  kind : InstrumentKind
  name : String
deriving DecidableEq

/-- A callback registration token (`metric.Registration`).  Its only
operation is `Unregister`, which either succeeds or returns an error
message; the behaviour is fixed by the environment at registration time. -/
structure Registration where
  unregisterErr : Option String
deriving DecidableEq

/-- The environment provided by the OpenTelemetry meter: for each
instrument-creation call it may fail with an error (keyed by instrument
name), `RegisterCallback` may fail, and the returned registration's
`Unregister` may fail. -/
structure Meter where
  counterErr : String → Option String
  obsCounterErr : String → Option String
  obsGaugeErr : String → Option String
  registerCallbackErr : Option String
  unregisterErr : Option String

/-- Observable events of an execution: instrument creation (successful or
failed), callback registration, invocation of the pebble metrics provider,
an `ObserveInt64` call, the callback invocation boundaries, and
`Unregister`. -/
inductive TraceEvent where
  | create (kind : InstrumentKind) (name : String)
  | createFail (kind : InstrumentKind) (name : String)
  | registerOk
  | registerFail
  | callbackBegin
  | providerCall
  | observe (instr : Instrument) (value : Int)
  | callbackEnd
  | unregisterCall
deriving DecidableEq

/-- One instrument-creation step of `NewMetrics`: the kind, the registered
instrument name, and the phrase used in the wrapped error message
(`"failed to create metric for <errDesc>: <err>"`). -/
structure Stage where
  kind : InstrumentKind
  name : String
  errDesc : String
deriving DecidableEq

/-- The nineteen instrument-creation steps of `NewMetrics`, in source
order: five synchronous counters, six observable counters and eight
observable gauges.  Names, kinds and error phrases are taken verbatim from
`metrics.go` (note the source's error phrase "bytes processed" for the
`aggregator.bytes.ingested` counter). -/
def stages : List Stage :=
  [ ⟨.syncCounter, "aggregator.requests.total", "requests total"⟩,
    ⟨.syncCounter, "aggregator.requests.failed", "requests failed"⟩,
    ⟨.syncCounter, "aggregator.events.total", "events total"⟩,
    ⟨.syncCounter, "aggregator.events.processed", "events processed"⟩,
    ⟨.syncCounter, "aggregator.bytes.ingested", "bytes processed"⟩,
    ⟨.asyncCounter, "pebble.flushes", "flushes"⟩,
    ⟨.asyncCounter, "pebble.flushed-bytes", "flushed bytes"⟩,
    ⟨.asyncCounter, "pebble.compactions", "compactions"⟩,
    ⟨.asyncCounter, "pebble.ingested-bytes", "ingested bytes"⟩,
    ⟨.asyncCounter, "pebble.compacted-bytes-read", "compacted bytes read"⟩,
    ⟨.asyncCounter, "pebble.compacted-bytes-written", "compacted bytes written"⟩,
    ⟨.asyncGauge, "pebble.memtable.total-size", "memtable size"⟩,
    ⟨.asyncGauge, "pebble.disk.usage", "total disk usage"⟩,
    ⟨.asyncGauge, "pebble.read-amplification", "read amplification"⟩,
    ⟨.asyncGauge, "pebble.num-sstables", "count of sstables"⟩,
    ⟨.asyncGauge, "pebble.table-readers-mem-estimate", "table cache readers"⟩,
    ⟨.asyncGauge, "pebble.estimated-pending-compaction", "pending compaction"⟩,
    ⟨.asyncGauge, "pebble.marked-for-compaction-files", "compaction marked files"⟩,
    ⟨.asyncGauge, "pebble.keys.tombstone.count", "tombstones"⟩ ]

/-- Outcome of one meter instrument-creation call, dispatched on the
instrument kind exactly as `NewMetrics` calls `Int64Counter`,
`Int64ObservableCounter` or `Int64ObservableGauge`. -/
def stageErr (meter : Meter) (s : Stage) : Option String :=
  match s.kind with
  | .syncCounter => meter.counterErr s.name
  | .asyncCounter => meter.obsCounterErr s.name
  | .asyncGauge => meter.obsGaugeErr s.name

/-- The `Metrics` struct of the telemetry package: five exported
synchronous counters, fourteen unexported asynchronous instruments, and
the stored callback registration. -/
structure Metrics where
  RequestsTotal : Instrument
  RequestsFailed : Instrument
  EventsTotal : Instrument
  EventsProcessed : Instrument
  BytesIngested : Instrument
  pebbleFlushes : Instrument
  pebbleFlushedBytes : Instrument
  pebbleCompactions : Instrument
  pebbleIngestedBytes : Instrument
  pebbleCompactedBytesRead : Instrument
  pebbleCompactedBytesWritten : Instrument
  pebbleMemtableTotalSize : Instrument
  pebbleTotalDiskUsage : Instrument
  pebbleReadAmplification : Instrument
  pebbleNumSSTables : Instrument
  pebbleTableReadersMemEstimate : Instrument
  pebblePendingCompaction : Instrument
  pebbleMarkedForCompactionFiles : Instrument
  pebbleKeysTombstones : Instrument
  registration : Option Registration
deriving DecidableEq

/-- The `Metrics` value built by a fully successful `NewMetrics` run: each
field holds the instrument created for it (kind and name as in the source),
and the registration returned by `RegisterCallback` is stored. -/
def mkMetrics (meter : Meter) : Metrics where
  RequestsTotal := ⟨.syncCounter, "aggregator.requests.total"⟩
  RequestsFailed := ⟨.syncCounter, "aggregator.requests.failed"⟩
  EventsTotal := ⟨.syncCounter, "aggregator.events.total"⟩
  EventsProcessed := ⟨.syncCounter, "aggregator.events.processed"⟩
  BytesIngested := ⟨.syncCounter, "aggregator.bytes.ingested"⟩
  pebbleFlushes := ⟨.asyncCounter, "pebble.flushes"⟩
  pebbleFlushedBytes := ⟨.asyncCounter, "pebble.flushed-bytes"⟩
  pebbleCompactions := ⟨.asyncCounter, "pebble.compactions"⟩
  pebbleIngestedBytes := ⟨.asyncCounter, "pebble.ingested-bytes"⟩
  pebbleCompactedBytesRead := ⟨.asyncCounter, "pebble.compacted-bytes-read"⟩
  pebbleCompactedBytesWritten := ⟨.asyncCounter, "pebble.compacted-bytes-written"⟩
  pebbleMemtableTotalSize := ⟨.asyncGauge, "pebble.memtable.total-size"⟩
  pebbleTotalDiskUsage := ⟨.asyncGauge, "pebble.disk.usage"⟩
  pebbleReadAmplification := ⟨.asyncGauge, "pebble.read-amplification"⟩
  pebbleNumSSTables := ⟨.asyncGauge, "pebble.num-sstables"⟩
  pebbleTableReadersMemEstimate := ⟨.asyncGauge, "pebble.table-readers-mem-estimate"⟩
  pebblePendingCompaction := ⟨.asyncGauge, "pebble.estimated-pending-compaction"⟩
  pebbleMarkedForCompactionFiles := ⟨.asyncGauge, "pebble.marked-for-compaction-files"⟩
  pebbleKeysTombstones := ⟨.asyncGauge, "pebble.keys.tombstone.count"⟩
  registration := some ⟨meter.unregisterErr⟩

/-- Run the instrument-creation steps in order, stopping at the first
meter error exactly as the source's `if err != nil` early returns do.
Returns the trace of creation events and either the wrapped error of the
failing step or success. -/
def runStages (meter : Meter) : List Stage → List TraceEvent × Except String Unit
  | [] => ([], .ok ())
  | s :: rest =>
    match stageErr meter s with
    | some e =>
        ([.createFail s.kind s.name],
         .error ("failed to create metric for " ++ s.errDesc ++ ": " ++ e))
    | none =>
        let r := runStages meter rest
        (.create s.kind s.name :: r.1, r.2)

/-- `NewMetrics`: create the nineteen instruments in order, then register
the pebble callback via `registerCallback`; any failure aborts with a
wrapped error and a nil result.  Returns the event trace together with the
result. -/
def NewMetricsT (meter : Meter) : List TraceEvent × Except String Metrics :=
  match runStages meter stages with
  | (t, .error e) => (t, .error e)
  | (t, .ok ()) =>
    match meter.registerCallbackErr with
    | some e => (t ++ [.registerFail], .error ("failed to register callback: " ++ e))
    | none => (t ++ [.registerOk], .ok (mkMetrics meter))

/-- The result of `NewMetrics` (trace dropped). -/
def NewMetrics (meter : Meter) : Except String Metrics :=
  (NewMetricsT meter).2

/-- A snapshot of the storage engine's statistics (`*pebble.Metrics`) as
returned by the provider and read by the registered callback.  Fields that
the source reads as `uint64` are modelled as `Nat`; fields read as `int64`
(or losslessly converted from `int`/`int32`) are modelled as `Int`.
`diskSpaceUsage` stands for the `DiskSpaceUsage()` accessor and the
`total*` fields for the aggregated per-level metrics `pm.Total()`; both are
computed inside the external pebble library. -/
structure PebbleMetrics where
  memTableSize : Nat
  diskSpaceUsage : Nat
  flushCount : Int
  level0BytesFlushed : Nat
  compactCount : Int
  compactEstimatedDebt : Nat
  compactMarkedFiles : Int
  tableCacheSize : Int
  keysTombstoneCount : Nat
  totalNumFiles : Int
  totalBytesIngested : Nat
  totalBytesRead : Nat
  totalBytesCompacted : Nat
  totalSublevels : Int

/-- Go's `int64(x)` conversion applied to a `uint64` value: reduce modulo
`2^64` and reinterpret the top bit as a sign. -/
def toInt64 (n : Nat) : Int :=
  if n % 2 ^ 64 < 2 ^ 63 then ((n % 2 ^ 64 : Nat) : Int)
  else ((n % 2 ^ 64 : Nat) : Int) - 2 ^ 64

/-- The `ObserveInt64` calls made by the body of the callback registered in
`registerCallback`, in source order, with the values read from the provider
snapshot. -/
def callbackObservations (i : Metrics) (pm : PebbleMetrics) :
    List (Instrument × Int) :=
  [ (i.pebbleMemtableTotalSize, toInt64 pm.memTableSize),
    (i.pebbleTotalDiskUsage, toInt64 pm.diskSpaceUsage),
    (i.pebbleFlushes, pm.flushCount),
    (i.pebbleFlushedBytes, toInt64 pm.level0BytesFlushed),
    (i.pebbleCompactions, pm.compactCount),
    (i.pebblePendingCompaction, toInt64 pm.compactEstimatedDebt),
    (i.pebbleMarkedForCompactionFiles, pm.compactMarkedFiles),
    (i.pebbleTableReadersMemEstimate, pm.tableCacheSize),
    (i.pebbleKeysTombstones, toInt64 pm.keysTombstoneCount),
    (i.pebbleNumSSTables, pm.totalNumFiles),
    (i.pebbleIngestedBytes, toInt64 pm.totalBytesIngested),
    (i.pebbleCompactedBytesRead, toInt64 pm.totalBytesRead),
    (i.pebbleCompactedBytesWritten, toInt64 pm.totalBytesCompacted),
    (i.pebbleReadAmplification, pm.totalSublevels) ]

/-- The observed-instrument list passed to `RegisterCallback` after the
callback function, in source order. -/
def registeredInstruments (i : Metrics) : List Instrument :=
  [ i.pebbleMemtableTotalSize,
    i.pebbleTotalDiskUsage,
    i.pebbleFlushes,
    i.pebbleFlushedBytes,
    i.pebbleCompactions,
    i.pebbleIngestedBytes,
    i.pebbleCompactedBytesRead,
    i.pebbleCompactedBytesWritten,
    i.pebbleReadAmplification,
    i.pebbleNumSSTables,
    i.pebbleTableReadersMemEstimate,
    i.pebblePendingCompaction,
    i.pebbleMarkedForCompactionFiles,
    i.pebbleKeysTombstones ]

/-- Trace of one invocation of the registered callback: on entry the
callback first calls the pebble metrics provider (`pm := provider()`),
then performs its `ObserveInt64` calls. -/
def callbackRun (i : Metrics) (pm : PebbleMetrics) : List TraceEvent :=
  .callbackBegin :: .providerCall ::
    ((callbackObservations i pm).map (fun o => TraceEvent.observe o.1 o.2)
      ++ [.callbackEnd])

/-- Whole-execution trace: `NewMetrics` runs first; if it succeeded, the
SDK then invokes the registered callback once per collection cycle, each
invocation reading one fresh provider snapshot. -/
def execTrace (meter : Meter) (snapshots : List PebbleMetrics) :
    List TraceEvent :=
  match NewMetricsT meter with
  | (t, .error _) => t
  | (t, .ok m) => t ++ (snapshots.map (callbackRun m)).flatten

/-- `CleanUp`, with the trace of `Unregister` invocations it makes.  A nil
receiver or a nil stored registration returns nil immediately; otherwise
`Unregister` is called and its error, if any, is wrapped. -/
def cleanUp : Option Metrics → List TraceEvent × Option String
  | none => ([], none)
  | some i =>
    match i.registration with
    | none => ([], none)
    | some r =>
      match r.unregisterErr with
      | some e => ([.unregisterCall], some ("failed to unregister callback: " ++ e))
      | none => ([.unregisterCall], none)

/-- Scope check for a trace: provider calls and observations may occur
only strictly inside a `callbackBegin`/`callbackEnd` span (the `Nat`
argument is the current nesting depth, `0` outside any callback). -/
def scopedOK : Nat → List TraceEvent → Bool
  | _, [] => true
  | d, .callbackBegin :: rest => scopedOK (d + 1) rest
  | d, .callbackEnd :: rest => decide (0 < d) && scopedOK (d - 1) rest
  | d, .providerCall :: rest => decide (0 < d) && scopedOK d rest
  | d, .observe _ _ :: rest => decide (0 < d) && scopedOK d rest
  | d, _ :: rest => scopedOK d rest

/-- A meter environment in which every meter operation succeeds. -/
def meterOK : Meter :=
  ⟨fun _ => none, fun _ => none, fun _ => none, none, none⟩

/-- A sample provider snapshot used by concrete witnesses. -/
def pmSample : PebbleMetrics :=
  ⟨10, 20, 3, 40, 5, 60, 7, 80, 9, 11, 120, 130, 140, 2⟩

lemma runStages_ok_trace (meter : Meter) (l : List Stage)
    (h : (runStages meter l).2 = .ok ()) :
    (runStages meter l).1 = l.map (fun s => TraceEvent.create s.kind s.name) := by
  induction l with
  | nil => simp [runStages]
  | cons s rest ih =>
    by_cases hs : stageErr meter s = none
    · simp only [runStages, hs] at h ⊢
      simp [ih h]
    · obtain ⟨e, he⟩ := Option.ne_none_iff_exists'.mp hs
      simp [runStages, he] at h

lemma runStages_error_shape (meter : Meter) (l : List Stage) (e : String)
    (h : (runStages meter l).2 = .error e) :
    ∃ s ∈ l, ∃ msg, stageErr meter s = some msg ∧
      e = "failed to create metric for " ++ s.errDesc ++ ": " ++ msg := by
  induction l with
  | nil => simp [runStages] at h
  | cons s rest ih =>
    by_cases hs : stageErr meter s = none
    · simp only [runStages, hs] at h
      obtain ⟨s', hs', msg, hmsg, hE⟩ := ih h
      exact ⟨s', List.mem_cons_of_mem _ hs', msg, hmsg, hE⟩
    · obtain ⟨e', he'⟩ := Option.ne_none_iff_exists'.mp hs
      simp only [runStages, he', Except.error.injEq] at h
      exact ⟨s, List.mem_cons_self _ _, e', he', h.symm⟩

lemma runStages_events (meter : Meter) (l : List Stage) :
    ∀ ev ∈ (runStages meter l).1,
      (∃ k n, ev = TraceEvent.create k n) ∨ (∃ k n, ev = TraceEvent.createFail k n) := by
  induction l with
  | nil => simp [runStages]
  | cons s rest ih =>
    intro ev hev
    by_cases hs : stageErr meter s = none
    · simp only [runStages, hs] at hev
      rcases List.mem_cons.mp hev with h | h
      · exact Or.inl ⟨s.kind, s.name, h⟩
      · exact ih ev h
    · obtain ⟨e', he'⟩ := Option.ne_none_iff_exists'.mp hs
      simp only [runStages, he', List.mem_singleton] at hev
      exact Or.inr ⟨s.kind, s.name, hev⟩

lemma newMetricsT_ok (meter : Meter) (m : Metrics)
    (h : (NewMetricsT meter).2 = .ok m) :
    m = mkMetrics meter ∧
      (NewMetricsT meter).1 =
        stages.map (fun s => TraceEvent.create s.kind s.name) ++ [.registerOk] := by
  unfold NewMetricsT at h ⊢
  rcases hr : runStages meter stages with ⟨t, r⟩
  cases r with
  | error e => simp [hr] at h
  | ok u =>
    cases u
    cases hreg : meter.registerCallbackErr with
    | some e => simp [hr, hreg] at h
    | none =>
      simp only [hr, hreg] at h ⊢
      have ht : t = stages.map (fun s => TraceEvent.create s.kind s.name) := by
        have := runStages_ok_trace meter stages
        rw [hr] at this
        exact this rfl
      exact ⟨(Except.ok.injEq _ _).mp h |>.symm, by rw [ht]⟩

lemma newMetricsT_no_registerOk_of_error (meter : Meter) (e : String)
    (h : (NewMetricsT meter).2 = .error e) :
    TraceEvent.registerOk ∉ (NewMetricsT meter).1 := by
  unfold NewMetricsT at h ⊢
  rcases hr : runStages meter stages with ⟨t, r⟩
  have hev := runStages_events meter stages
  rw [hr] at hev
  cases r with
  | error e' =>
    simp only
    intro hmem
    rcases hev _ hmem with ⟨k, n, hk⟩ | ⟨k, n, hk⟩ <;> simp at hk
  | ok u =>
    cases u
    cases hreg : meter.registerCallbackErr with
    | some e' =>
      simp only [List.mem_append, List.mem_singleton]
      rintro (hmem | hmem)
      · rcases hev _ hmem with ⟨k, n, hk⟩ | ⟨k, n, hk⟩ <;> simp at hk
      · simp at hmem
    | none => simp [hr, hreg] at h

/-- Events emitted during construction (`NewMetrics`), as opposed to
events emitted inside a callback invocation. -/
def constructionEvent : TraceEvent → Prop
  | .create _ _ => True
  | .createFail _ _ => True
  | .registerOk => True
  | .registerFail => True
  | _ => False

lemma scopedOK_append_construction (d : Nat) (t rest : List TraceEvent)
    (h : ∀ ev ∈ t, constructionEvent ev) :
    scopedOK d (t ++ rest) = scopedOK d rest := by
  induction t with
  | nil => simp
  | cons ev t ih =>
    have hev := h ev (List.mem_cons_self _ _)
    have ht : ∀ e ∈ t, constructionEvent e := fun e he => h e (List.mem_cons_of_mem _ he)
    cases ev <;> simp [constructionEvent] at hev <;>
      simp [scopedOK, ih ht]

lemma newMetricsT_events_construction (meter : Meter) :
    ∀ ev ∈ (NewMetricsT meter).1, constructionEvent ev := by
  unfold NewMetricsT
  rcases hr : runStages meter stages with ⟨t, r⟩
  have hev := runStages_events meter stages
  rw [hr] at hev
  have ht : ∀ ev ∈ t, constructionEvent ev := by
    intro ev h
    rcases hev ev h with ⟨k, n, hk⟩ | ⟨k, n, hk⟩ <;> subst hk <;> trivial
  cases r with
  | error e => exact ht
  | ok u =>
    cases u
    cases hreg : meter.registerCallbackErr with
    | some e =>
      intro ev h
      rcases List.mem_append.mp h with h | h
      · exact ht ev h
      · simp only [List.mem_singleton] at h; subst h; trivial
    | none =>
      intro ev h
      rcases List.mem_append.mp h with h | h
      · exact ht ev h
      · simp only [List.mem_singleton] at h; subst h; trivial

lemma scopedOK_callbackRun (i : Metrics) (pm : PebbleMetrics) (d : Nat)
    (rest : List TraceEvent) :
    scopedOK d (callbackRun i pm ++ rest) = scopedOK d rest := by
  simp [callbackRun, callbackObservations, scopedOK]

/-- A meter whose very first instrument creation fails. -/
def meterBad : Meter :=
  ⟨fun n => if n = "aggregator.requests.total" then some "boom" else none,
   fun _ => none, fun _ => none, none, none⟩

/-- A `Metrics` value carrying no registration. -/
def metricsNoReg : Metrics :=
  { mkMetrics meterOK with registration := none }

/-- C1: every invocation of the callback registered by `NewMetrics`
observes each engine statistic of the telemetry surface — flush count,
flushed bytes, compaction count, compacted bytes read, compacted bytes
written, ingested bytes, memtable size, total disk usage, read
amplification, table count, pending-compaction estimate, and tombstone
count — exactly once on its corresponding observable instrument, with the
value taken from the provider's statistics snapshot. -/
theorem newMetrics_callback_observes_each_stat_once
    (meter : Meter) (m : Metrics) (h : NewMetrics meter = .ok m)
    (pm : PebbleMetrics) :
    ((callbackObservations m pm).filter (fun o => decide (o.1 = m.pebbleFlushes))
        = [(m.pebbleFlushes, pm.flushCount)]) ∧
    ((callbackObservations m pm).filter (fun o => decide (o.1 = m.pebbleFlushedBytes))
        = [(m.pebbleFlushedBytes, toInt64 pm.level0BytesFlushed)]) ∧
    ((callbackObservations m pm).filter (fun o => decide (o.1 = m.pebbleCompactions))
        = [(m.pebbleCompactions, pm.compactCount)]) ∧
    ((callbackObservations m pm).filter (fun o => decide (o.1 = m.pebbleCompactedBytesRead))
        = [(m.pebbleCompactedBytesRead, toInt64 pm.totalBytesRead)]) ∧
    ((callbackObservations m pm).filter (fun o => decide (o.1 = m.pebbleCompactedBytesWritten))
        = [(m.pebbleCompactedBytesWritten, toInt64 pm.totalBytesCompacted)]) ∧
    ((callbackObservations m pm).filter (fun o => decide (o.1 = m.pebbleIngestedBytes))
        = [(m.pebbleIngestedBytes, toInt64 pm.totalBytesIngested)]) ∧
    ((callbackObservations m pm).filter (fun o => decide (o.1 = m.pebbleMemtableTotalSize))
        = [(m.pebbleMemtableTotalSize, toInt64 pm.memTableSize)]) ∧
    ((callbackObservations m pm).filter (fun o => decide (o.1 = m.pebbleTotalDiskUsage))
        = [(m.pebbleTotalDiskUsage, toInt64 pm.diskSpaceUsage)]) ∧
    ((callbackObservations m pm).filter (fun o => decide (o.1 = m.pebbleReadAmplification))
        = [(m.pebbleReadAmplification, pm.totalSublevels)]) ∧
    ((callbackObservations m pm).filter (fun o => decide (o.1 = m.pebbleNumSSTables))
        = [(m.pebbleNumSSTables, pm.totalNumFiles)]) ∧
    ((callbackObservations m pm).filter (fun o => decide (o.1 = m.pebblePendingCompaction))
        = [(m.pebblePendingCompaction, toInt64 pm.compactEstimatedDebt)]) ∧
    ((callbackObservations m pm).filter (fun o => decide (o.1 = m.pebbleKeysTombstones))
        = [(m.pebbleKeysTombstones, toInt64 pm.keysTombstoneCount)]) := by
  obtain ⟨hm, -⟩ := newMetricsT_ok meter m h
  subst hm
  refine ⟨?_, ?_, ?_, ?_, ?_, ?_, ?_, ?_, ?_, ?_, ?_, ?_⟩ <;>
    simp [callbackObservations, mkMetrics, List.filter]

/-- Witness for C1 at a concrete meter and snapshot. -/
theorem newMetrics_callback_observes_each_stat_once_witness :
    ((callbackObservations (mkMetrics meterOK) pmSample).filter
        (fun o => decide (o.1 = (mkMetrics meterOK).pebbleFlushes))
      = [((mkMetrics meterOK).pebbleFlushes, pmSample.flushCount)]) :=
  (newMetrics_callback_observes_each_stat_once meterOK (mkMetrics meterOK)
    rfl pmSample).1

/-- C2: a successful `NewMetrics` creates exactly five synchronous Int64
counters, named `aggregator.requests.total`, `aggregator.requests.failed`,
`aggregator.events.total`, `aggregator.events.processed` and
`aggregator.bytes.ingested`, and these are exactly the five exported
counter fields of the returned `Metrics`. -/
theorem newMetrics_creates_five_sync_counters
    (meter : Meter) (m : Metrics) (h : NewMetrics meter = .ok m) :
    ((NewMetricsT meter).1.filterMap (fun ev =>
        match ev with
        | TraceEvent.create .syncCounter n => some n
        | _ => none))
      = ["aggregator.requests.total", "aggregator.requests.failed",
         "aggregator.events.total", "aggregator.events.processed",
         "aggregator.bytes.ingested"] ∧
    m.RequestsTotal = ⟨.syncCounter, "aggregator.requests.total"⟩ ∧
    m.RequestsFailed = ⟨.syncCounter, "aggregator.requests.failed"⟩ ∧
    m.EventsTotal = ⟨.syncCounter, "aggregator.events.total"⟩ ∧
    m.EventsProcessed = ⟨.syncCounter, "aggregator.events.processed"⟩ ∧
    m.BytesIngested = ⟨.syncCounter, "aggregator.bytes.ingested"⟩ := by
  obtain ⟨hm, ht⟩ := newMetricsT_ok meter m h
  subst hm
  rw [ht]
  refine ⟨?_, rfl, rfl, rfl, rfl, rfl⟩
  simp [stages]

/-- Witness for C2 at a concrete meter. -/
theorem newMetrics_creates_five_sync_counters_witness :
    (mkMetrics meterOK).RequestsTotal
      = ⟨.syncCounter, "aggregator.requests.total"⟩ :=
  (newMetrics_creates_five_sync_counters meterOK (mkMetrics meterOK) rfl).2.1

/-- C3: sampling is pull-based.  In every whole execution the trace is
well scoped — provider calls and observations occur only strictly inside
a callback invocation — `NewMetrics` itself never calls the provider, and
each callback invocation calls the provider exactly once. -/
theorem provider_sampled_only_inside_callback
    (meter : Meter) (snapshots : List PebbleMetrics) :
    scopedOK 0 (execTrace meter snapshots) = true ∧
    TraceEvent.providerCall ∉ (NewMetricsT meter).1 ∧
    ∀ (m : Metrics) (pm : PebbleMetrics),
      (callbackRun m pm).count TraceEvent.providerCall = 1 := by
  refine ⟨?_, ?_, ?_⟩
  · unfold execTrace
    rcases hr : NewMetricsT meter with ⟨t, r⟩
    have ht : ∀ ev ∈ t, constructionEvent ev := by
      have := newMetricsT_events_construction meter
      rw [hr] at this
      exact this
    cases r with
    | error e => simpa using scopedOK_append_construction 0 t [] ht
    | ok m =>
      rw [scopedOK_append_construction 0 t _ ht]
      induction snapshots with
      | nil => simp [scopedOK]
      | cons pm rest ih =>
        simpa [scopedOK_callbackRun] using ih
  · intro hmem
    have := newMetricsT_events_construction meter _ hmem
    simp [constructionEvent] at this
  · intro m pm
    simp [callbackRun, callbackObservations]

/-- C4: the registration created by a successful `NewMetrics` is released
by `CleanUp`: the stored registration is the one returned by
`RegisterCallback`, `CleanUp` invokes its `Unregister`, and `CleanUp`
returns an error exactly when that `Unregister` call fails. -/
theorem cleanUp_unregisters_on_shutdown
    (meter : Meter) (m : Metrics) (h : NewMetrics meter = .ok m) :
    m.registration = some ⟨meter.unregisterErr⟩ ∧
    (cleanUp (some m)).1 = [TraceEvent.unregisterCall] ∧
    ((cleanUp (some m)).2 ≠ none ↔ meter.unregisterErr ≠ none) := by
  obtain ⟨hm, -⟩ := newMetricsT_ok meter m h
  subst hm
  cases hreg : meter.unregisterErr <;>
    simp [cleanUp, mkMetrics, hreg]

/-- Witness for C4 at a concrete meter. -/
theorem cleanUp_unregisters_on_shutdown_witness :
    (cleanUp (some (mkMetrics meterOK))).1 = [TraceEvent.unregisterCall] :=
  (cleanUp_unregisters_on_shutdown meterOK (mkMetrics meterOK) rfl).2.1

/-- C5: `NewMetrics` fails atomically.  Whenever it returns an error, no
successful callback registration was performed, and the error names the
failing step and wraps the meter's error: it is either the
instrument-creation error of one of the nineteen stages or the
callback-registration error. -/
theorem newMetrics_fails_atomically
    (meter : Meter) (e : String) (h : NewMetrics meter = .error e) :
    TraceEvent.registerOk ∉ (NewMetricsT meter).1 ∧
    ((∃ s ∈ stages, ∃ msg, stageErr meter s = some msg ∧
        e = "failed to create metric for " ++ s.errDesc ++ ": " ++ msg) ∨
      (∃ msg, meter.registerCallbackErr = some msg ∧
        e = "failed to register callback: " ++ msg)) := by
  refine ⟨newMetricsT_no_registerOk_of_error meter e h, ?_⟩
  unfold NewMetrics NewMetricsT at h
  rcases hr : runStages meter stages with ⟨t, r⟩
  rw [hr] at h
  cases r with
  | error e' =>
    simp only [Except.error.injEq] at h
    subst h
    have := runStages_error_shape meter stages e'
    rw [hr] at this
    exact Or.inl (this rfl)
  | ok u =>
    cases u
    cases hreg : meter.registerCallbackErr with
    | some e' =>
      simp only [hreg, Except.error.injEq] at h
      exact Or.inr ⟨e', rfl, h.symm⟩
    | none => simp [hreg] at h

/-- Witness for C5 at a concrete failing meter. -/
theorem newMetrics_fails_atomically_witness :
    TraceEvent.registerOk ∉ (NewMetricsT meterBad).1 :=
  (newMetrics_fails_atomically meterBad
    "failed to create metric for requests total: boom" rfl).1

/-- C6: the observed-instrument list passed to `RegisterCallback` is a
permutation of (hence equal as a set to) the instruments on which the
callback body calls `ObserveInt64`. -/
theorem registered_instruments_match_observed
    (meter : Meter) (m : Metrics) (h : NewMetrics meter = .ok m)
    (pm : PebbleMetrics) :
    ((callbackObservations m pm).map Prod.fst).Perm (registeredInstruments m) := by
  obtain ⟨hm, -⟩ := newMetricsT_ok meter m h
  subst hm
  simp only [callbackObservations, registeredInstruments, mkMetrics, List.map]
  decide

/-- Witness for C6 at a concrete meter and snapshot. -/
theorem registered_instruments_match_observed_witness :
    ((callbackObservations (mkMetrics meterOK) pmSample).map Prod.fst).Perm
      (registeredInstruments (mkMetrics meterOK)) :=
  registered_instruments_match_observed meterOK (mkMetrics meterOK) rfl pmSample

/-- C7: `CleanUp` is nil-safe and idempotent: on a nil receiver, or on a
`Metrics` whose stored registration is nil, it returns nil without
invoking any `Unregister`. -/
theorem cleanUp_nil_safe :
    cleanUp none = ([], none) ∧
    ∀ m : Metrics, m.registration = none → cleanUp (some m) = ([], none) := by
  refine ⟨rfl, ?_⟩
  intro m h
  simp [cleanUp, h]

/-- Witness for C7 on a concrete registration-free `Metrics`. -/
theorem cleanUp_nil_safe_witness :
    cleanUp (some metricsNoReg) = ([], none) :=
  cleanUp_nil_safe.2 metricsNoReg rfl

end Telemetry

namespace MergeAlgebra

/-- Modelled from the spec: the largest unsigned 64-bit count; counts
"are unsigned and saturate rather than overflow-wrap" (§4.2). -/
def U64MAX : Nat := 2 ^ 64 - 1

/-- Modelled from the spec: saturating unsigned addition of counts. -/
def satAdd (a b : Nat) : Nat := min (a + b) U64MAX

/-- Modelled from the spec: the mergeable `MetricValue` — event count,
outcome (success/failure) counts, a fixed-bucket log-linear latency
histogram merged bucket-wise by addition, and a fixed-size
approximate-distinct sketch register array (§3, §4.2).  The source of the
merge algebra is not among the provided files. -/
structure MetricValue where
  eventCount : Nat
  successCount : Nat
  failureCount : Nat
  histogram : List Nat
  sketch : List Nat
deriving DecidableEq

/-- Modelled from the spec: `Merge(a, b)` — pure, merging counts by
saturating addition, histograms bucket-wise by saturating addition, and
sketch registers pointwise by maximum (the standard mergeable-sketch
combination). -/
def Merge (a b : MetricValue) : MetricValue where
  eventCount := satAdd a.eventCount b.eventCount
  successCount := satAdd a.successCount b.successCount
  failureCount := satAdd a.failureCount b.failureCount
  histogram := List.zipWith satAdd a.histogram b.histogram
  sketch := List.zipWith max a.sketch b.sketch

lemma satAdd_comm (a b : Nat) : satAdd a b = satAdd b a := by
  unfold satAdd
  omega

lemma satAdd_assoc (a b c : Nat) : satAdd (satAdd a b) c = satAdd a (satAdd b c) := by
  unfold satAdd U64MAX
  omega

lemma zipWith_assoc (f : Nat → Nat → Nat)
    (hf : ∀ x y z, f (f x y) z = f x (f y z)) :
    ∀ a b c : List Nat,
      List.zipWith f (List.zipWith f a b) c = List.zipWith f a (List.zipWith f b c) := by
  intro a
  induction a with
  | nil => intro b c; simp
  | cons x a ih =>
    intro b c
    cases b with
    | nil => simp
    | cons y b =>
      cases c with
      | nil => simp
      | cons z c => simp [hf, ih]

lemma merge_comm (a b : MetricValue) : Merge a b = Merge b a := by
  unfold Merge
  simp only [MetricValue.mk.injEq]
  exact ⟨satAdd_comm _ _, satAdd_comm _ _, satAdd_comm _ _,
    List.zipWith_comm_of_comm satAdd satAdd_comm _ _,
    List.zipWith_comm_of_comm max Nat.max_comm _ _⟩

lemma merge_assoc (a b c : MetricValue) :
    Merge (Merge a b) c = Merge a (Merge b c) := by
  unfold Merge
  simp only [MetricValue.mk.injEq]
  exact ⟨satAdd_assoc _ _ _, satAdd_assoc _ _ _, satAdd_assoc _ _ _,
    zipWith_assoc satAdd satAdd_assoc _ _ _,
    zipWith_assoc max Nat.max_assoc _ _ _⟩

/-- C8: `Merge` is commutative and associative, and consequently folding
any permutation of a finite sequence of contributions over `Merge`
yields an identical final `MetricValue`. -/
theorem merge_comm_assoc_any_order :
    (∀ a b c : MetricValue, Merge (Merge a b) c = Merge a (Merge b c)) ∧
    (∀ a b : MetricValue, Merge a b = Merge b a) ∧
    (∀ (z : MetricValue) (l₁ l₂ : List MetricValue), l₁.Perm l₂ →
      l₁.foldl Merge z = l₂.foldl Merge z) := by
  refine ⟨merge_assoc, merge_comm, ?_⟩
  intro z l₁ l₂ hp
  refine hp.foldl_eq' ?_ z
  intro x _ y _ w
  rw [merge_assoc, merge_assoc, merge_comm x y]

/-- Concrete sample metric values. -/
def mvA : MetricValue := ⟨1, 1, 0, [1, 0, 2], [3, 1]⟩

/-- Concrete sample metric values. -/
def mvB : MetricValue := ⟨4, 2, 2, [0, 5, 1], [1, 6]⟩

/-- Witness for C8: the fold of a concrete permuted pair coincides. -/
theorem merge_comm_assoc_any_order_witness :
    List.foldl Merge ⟨0, 0, 0, [0, 0, 0], [0, 0]⟩ [mvA, mvB]
      = List.foldl Merge ⟨0, 0, 0, [0, 0, 0], [0, 0]⟩ [mvB, mvA] :=
  merge_comm_assoc_any_order.2.2 ⟨0, 0, 0, [0, 0, 0], [0, 0]⟩
    [mvA, mvB] [mvB, mvA] (List.Perm.swap mvB mvA [])

/-- Little-endian encoding of a value into a fixed number of bytes. -/
def natToLE : Nat → Nat → List Nat
  | 0, _ => []
  | w + 1, n => n % 256 :: natToLE w (n / 256)

/-- Little-endian decoding of a byte list. -/
def leToNat : List Nat → Nat
  | [] => 0
  | b :: bs => b + 256 * leToNat bs

/-- Modelled from the spec: `Serialize` — a fixed-width bit-for-bit
encoding of every `MetricValue` field: the three counts, then every
histogram bucket count, then every sketch register, each as eight
little-endian bytes (§4.2; the serialization source is not among the
provided files). -/
def Serialize (v : MetricValue) : List Nat :=
  natToLE 8 v.eventCount ++ natToLE 8 v.successCount ++ natToLE 8 v.failureCount ++
    (v.histogram.map (natToLE 8)).flatten ++ (v.sketch.map (natToLE 8)).flatten

/-- Read one eight-byte little-endian word. -/
def readWord (bs : List Nat) : Option (Nat × List Nat) :=
  if 8 ≤ bs.length then some (leToNat (bs.take 8), bs.drop 8) else none

/-- Read a fixed number of eight-byte words. -/
def readWords : Nat → List Nat → Option (List Nat × List Nat)
  | 0, bs => some ([], bs)
  | k + 1, bs =>
    match readWord bs with
    | none => none
    | some (n, bs') =>
      match readWords k bs' with
      | none => none
      | some (ns, rest) => some (n :: ns, rest)

/-- Modelled from the spec: `Deserialize` for the configuration with `B`
histogram buckets and `R` sketch registers (bucket layout and register
count are fixed at construction time and identical across all values,
§4.2).  Fails on truncated or oversized input. -/
def Deserialize (B R : Nat) (bs : List Nat) : Option MetricValue :=
  match readWord bs with
  | none => none
  | some (ec, bs₁) =>
    match readWord bs₁ with
    | none => none
    | some (sc, bs₂) =>
      match readWord bs₂ with
      | none => none
      | some (fc, bs₃) =>
        match readWords B bs₃ with
        | none => none
        | some (hist, bs₄) =>
          match readWords R bs₄ with
          | none => none
          | some (sk, rest) =>
            match rest with
            | [] => some ⟨ec, sc, fc, hist, sk⟩
            | _ => none

/-- Well-formedness for the configuration with `B` buckets and `R`
registers: all counts are 64-bit values and the histogram and sketch have
their configured sizes. -/
def WF (B R : Nat) (v : MetricValue) : Prop :=
  v.eventCount < 2 ^ 64 ∧ v.successCount < 2 ^ 64 ∧ v.failureCount < 2 ^ 64 ∧
    v.histogram.length = B ∧ (∀ x ∈ v.histogram, x < 2 ^ 64) ∧
    v.sketch.length = R ∧ (∀ x ∈ v.sketch, x < 2 ^ 64)

instance (B R : Nat) (v : MetricValue) : Decidable (WF B R v) := by
  unfold WF
  infer_instance

lemma natToLE_length (w n : Nat) : (natToLE w n).length = w := by
  induction w generalizing n with
  | zero => rfl
  | succ w ih => simp [natToLE, ih]

lemma leToNat_natToLE (w n : Nat) : leToNat (natToLE w n) = n % 256 ^ w := by
  induction w generalizing n with
  | zero => simp [natToLE, leToNat, Nat.mod_one]
  | succ w ih =>
    rw [natToLE, leToNat, ih]
    rw [pow_succ, mul_comm (256 ^ w) 256, Nat.mod_mul]

lemma readWord_append (n : Nat) (hn : n < 2 ^ 64) (rest : List Nat) :
    readWord (natToLE 8 n ++ rest) = some (n, rest) := by
  have hl : (natToLE 8 n).length = 8 := natToLE_length 8 n
  unfold readWord
  rw [if_pos (by simp [hl])]
  have ht : (natToLE 8 n ++ rest).take 8 = natToLE 8 n := by
    conv in 8 => rw [← hl]
    exact List.take_left _ _
  have hd : (natToLE 8 n ++ rest).drop 8 = rest := by
    conv in 8 => rw [← hl]
    exact List.drop_left _ _
  rw [ht, hd, leToNat_natToLE]
  have : n % 256 ^ 8 = n := Nat.mod_eq_of_lt (by norm_num at hn ⊢; exact hn)
  rw [this]

lemma readWords_append (l : List Nat) (hl : ∀ x ∈ l, x < 2 ^ 64) (rest : List Nat) :
    readWords l.length ((l.map (natToLE 8)).flatten ++ rest) = some (l, rest) := by
  induction l with
  | nil => simp [readWords]
  | cons x l ih =>
    have hx : x < 2 ^ 64 := hl x (List.mem_cons_self _ _)
    have hl' : ∀ y ∈ l, y < 2 ^ 64 := fun y hy => hl y (List.mem_cons_of_mem _ hy)
    simp only [List.length_cons, List.map_cons, List.flatten_cons, readWords,
      List.append_assoc, readWord_append x hx, ih hl']

/-- C9: serialization round-trips exactly: for every well-formed
`MetricValue` of the configured shape, `Deserialize` recovers from
`Serialize v` the identical value, including every histogram bucket count
and the full sketch register state. -/
theorem serialize_deserialize_roundtrip (B R : Nat) (v : MetricValue)
    (h : WF B R v) :
    Deserialize B R (Serialize v) = some v := by
  obtain ⟨h1, h2, h3, hB, hhist, hR, hsk⟩ := h
  subst hB
  subst hR
  unfold Serialize Deserialize
  have hs := readWords_append v.sketch hsk []
  rw [List.append_nil] at hs
  simp only [List.append_assoc, readWord_append _ h1, readWord_append _ h2,
    readWord_append _ h3, readWords_append v.histogram hhist, hs]

/-- Witness for C9 at a concrete well-formed value. -/
theorem serialize_deserialize_roundtrip_witness :
    Deserialize 3 2 (Serialize mvA) = some mvA :=
  serialize_deserialize_roundtrip 3 2 mvA (by decide)

end MergeAlgebra

namespace Harvester

/-- Modelled from the spec: the per-interval harvest state machine
`Idle → Scanning → Finalizing → Publishing → Reclaiming → Idle` (§4.6).
The non-idle phases carry the window start being harvested.  The
harvester source is not among the provided files. -/
inductive Phase where
  | idle
  | scanning (w : Nat)
  | finalizing (w : Nat)
  | publishing (w : Nat)
  | reclaiming (w : Nat)
deriving DecidableEq

/-- The window a non-idle harvest run is working on. -/
def harvestTarget : Phase → Option Nat
  | .idle => none
  | .scanning w => some w
  | .finalizing w => some w
  | .publishing w => some w
  | .reclaiming w => some w

/-- Modelled from the spec: the system state for one aggregation
interval — the Buffer Store's entries (window start paired with an entry
payload), the set of windows whose reclaim has completed, and the
harvester phase. -/
structure SysState where
  store : List (Nat × Nat)
  reclaimed : List Nat
  phase : Phase
deriving DecidableEq

/-- Modelled from the spec: observable actions — an Aggregator
merge-write into a window, the harvest steps (`ScanWindow`, finalize,
publish with sink acknowledgment or failure), and `DeleteWindow`. -/
inductive Action where
  | write (w : Nat) (e : Nat)
  | startScan (w : Nat)
  | finishScan (w : Nat)
  | finishFinalize (w : Nat)
  | ackPublish (w : Nat)
  | failPublish (w : Nat)
  | deleteWindow (w : Nat)
deriving DecidableEq

/-- `ScanWindow`: all entries in the contiguous range of one window. -/
def scanWindow (s : SysState) (w : Nat) : List (Nat × Nat) :=
  s.store.filter (fun kv => decide (kv.1 = w))

/-- Modelled from the spec: one enabled transition, `none` when the
action is not admissible in the current state.  Writes are rejected for
windows whose reclaim completed or that are being harvested (§5: late
events must not land in a range mid-deletion); a harvest progresses
`Idle → Scanning → Finalizing → Publishing`; the sink's acknowledgment
moves `Publishing → Reclaiming`, a publish failure returns to `Idle`
without deleting anything, and only `Reclaiming` may call
`DeleteWindow`, which clears the range and completes the reclaim
(§4.6). -/
def step (s : SysState) : Action → Option SysState
  | .write w e =>
    if w ∈ s.reclaimed ∨ harvestTarget s.phase = some w then none
    else some { s with store := s.store ++ [(w, e)] }
  | .startScan w =>
    match s.phase with
    | .idle => some { s with phase := .scanning w }
    | _ => none
  | .finishScan w =>
    match s.phase with
    | .scanning w' => if w = w' then some { s with phase := .finalizing w } else none
    | _ => none
  | .finishFinalize w =>
    match s.phase with
    | .finalizing w' => if w = w' then some { s with phase := .publishing w } else none
    | _ => none
  | .ackPublish w =>
    match s.phase with
    | .publishing w' => if w = w' then some { s with phase := .reclaiming w } else none
    | _ => none
  | .failPublish w =>
    match s.phase with
    | .publishing w' => if w = w' then some { s with phase := .idle } else none
    | _ => none
  | .deleteWindow w =>
    match s.phase with
    | .reclaiming w' =>
      if w = w' then
        some ⟨s.store.filter (fun kv => decide (kv.1 ≠ w)), w :: s.reclaimed, .idle⟩
      else none
    | _ => none

/-- Run a sequence of actions; `none` as soon as one is not enabled. -/
def run (s : SysState) : List Action → Option SysState
  | [] => some s
  | a :: tr =>
    match step s a with
    | none => none
    | some s' => run s' tr

/-- The initial state: empty store, nothing reclaimed, harvester idle. -/
def init : SysState := ⟨[], [], .idle⟩

lemma run_append (s : SysState) (t₁ t₂ : List Action) :
    run s (t₁ ++ t₂) =
      match run s t₁ with
      | none => none
      | some s' => run s' t₂ := by
  induction t₁ generalizing s with
  | nil => simp [run]
  | cons a t₁ ih =>
    simp only [List.cons_append, run]
    cases step s a with
    | none => rfl
    | some s' => exact ih s'

lemma step_reclaiming (s : SysState) (a : Action) (s₁ : SysState) (w : Nat)
    (h : step s a = some s₁) (hp : s₁.phase = Phase.reclaiming w) :
    a = Action.ackPublish w ∨ s.phase = Phase.reclaiming w := by
  cases a with
  | write w' e =>
    rw [step] at h
    by_cases hg : w' ∈ s.reclaimed ∨ harvestTarget s.phase = some w'
    · simp [hg] at h
    · rw [if_neg hg] at h
      obtain rfl := (Option.some.injEq _ _).mp h
      exact Or.inr hp
  | startScan w' =>
    rw [step] at h
    cases hs : s.phase <;> simp [hs] at h
    case idle =>
      obtain rfl := h.symm
      simp at hp
  | finishScan w' =>
    rw [step] at h
    cases hs : s.phase <;> simp [hs] at h
    case scanning w'' =>
      obtain ⟨he, rfl⟩ := h
      simp at hp
  | finishFinalize w' =>
    rw [step] at h
    cases hs : s.phase <;> simp [hs] at h
    case finalizing w'' =>
      obtain ⟨he, rfl⟩ := h
      simp at hp
  | ackPublish w' =>
    rw [step] at h
    cases hs : s.phase <;> simp [hs] at h
    case publishing w'' =>
      obtain ⟨he, rfl⟩ := h
      simp at hp
      exact Or.inl (by rw [hp])
  | failPublish w' =>
    rw [step] at h
    cases hs : s.phase <;> simp [hs] at h
    case publishing w'' =>
      obtain ⟨he, rfl⟩ := h
      simp at hp
  | deleteWindow w' =>
    rw [step] at h
    cases hs : s.phase <;> simp [hs] at h
    case reclaiming w'' =>
      obtain ⟨he, rfl⟩ := h
      simp at hp

lemma delete_requires_ack (pre : List Action) :
    ∀ (s : SysState) (w : Nat) (post : List Action) (s' : SysState),
      run s (pre ++ Action.deleteWindow w :: post) = some s' →
      Action.ackPublish w ∈ pre ∨ s.phase = Phase.reclaiming w := by
  induction pre with
  | nil =>
    intro s w post s' h
    simp only [List.nil_append, run] at h
    right
    rcases hstep : step s (Action.deleteWindow w) with _ | s₁
    · simp [hstep] at h
    · rw [step] at hstep
      cases hs : s.phase <;> rw [hs] at hstep
      case idle => simp at hstep
      case scanning w' => simp at hstep
      case finalizing w' => simp at hstep
      case publishing w' => simp at hstep
      case reclaiming w' =>
        by_cases hw : w = w'
        · subst hw; rfl
        · simp [hw] at hstep
  | cons a pre ih =>
    intro s w post s' h
    simp only [List.cons_append, run] at h
    rcases hstep : step s a with _ | s₁
    · simp [hstep] at h
    · simp only [hstep] at h
      rcases ih s₁ w post s' h with hmem | hph
      · exact Or.inl (List.mem_cons_of_mem _ hmem)
      · rcases step_reclaiming s a s₁ w hstep hph with rfl | hph'
        · exact Or.inl (List.mem_cons_self _ _)
        · exact Or.inr hph'

/-- No entry for an already-reclaimed window is present in the store. -/
def ReclaimedClean (s : SysState) : Prop :=
  ∀ w ∈ s.reclaimed, ∀ kv ∈ s.store, kv.1 ≠ w

lemma step_preserves_clean (s : SysState) (a : Action) (s₁ : SysState)
    (h : step s a = some s₁) (hc : ReclaimedClean s) : ReclaimedClean s₁ := by
  cases a with
  | write w e =>
    rw [step] at h
    by_cases hg : w ∈ s.reclaimed ∨ harvestTarget s.phase = some w
    · simp [hg] at h
    · rw [if_neg hg] at h
      obtain rfl := (Option.some.injEq _ _).mp h
      intro w' hw' kv hkv
      rcases List.mem_append.mp hkv with hkv | hkv
      · exact hc w' hw' kv hkv
      · simp only [List.mem_singleton] at hkv
        subst hkv
        intro hww
        have hww' : w = w' := hww
        exact (not_or.mp hg).1 (by rw [hww']; exact hw')
  | startScan w =>
    rw [step] at h
    cases hs : s.phase <;> rw [hs] at h <;> simp at h
    case idle => obtain rfl := h.symm; exact hc
  | finishScan w =>
    rw [step] at h
    cases hs : s.phase <;> rw [hs] at h <;> simp at h
    case scanning w' =>
      obtain ⟨-, rfl⟩ := h
      exact hc
  | finishFinalize w =>
    rw [step] at h
    cases hs : s.phase <;> rw [hs] at h <;> simp at h
    case finalizing w' =>
      obtain ⟨-, rfl⟩ := h
      exact hc
  | ackPublish w =>
    rw [step] at h
    cases hs : s.phase <;> rw [hs] at h <;> simp at h
    case publishing w' =>
      obtain ⟨-, rfl⟩ := h
      exact hc
  | failPublish w =>
    rw [step] at h
    cases hs : s.phase <;> rw [hs] at h <;> simp at h
    case publishing w' =>
      obtain ⟨-, rfl⟩ := h
      exact hc
  | deleteWindow w =>
    rw [step] at h
    cases hs : s.phase <;> rw [hs] at h <;> simp at h
    case reclaiming w' =>
      obtain ⟨-, rfl⟩ := h
      intro w'' hw'' kv hkv
      have hkv' := List.mem_filter.mp hkv
      rcases List.mem_cons.mp hw'' with rfl | hw''
      · simpa using hkv'.2
      · exact hc w'' hw'' kv hkv'.1

lemma step_reclaimed_mono (s : SysState) (a : Action) (s₁ : SysState)
    (h : step s a = some s₁) (w : Nat) (hw : w ∈ s.reclaimed) :
    w ∈ s₁.reclaimed := by
  cases a with
  | write w' e =>
    rw [step] at h
    by_cases hg : w' ∈ s.reclaimed ∨ harvestTarget s.phase = some w'
    · simp [hg] at h
    · rw [if_neg hg] at h
      obtain rfl := (Option.some.injEq _ _).mp h
      exact hw
  | startScan w' =>
    rw [step] at h
    cases hs : s.phase <;> rw [hs] at h <;> simp at h
    case idle => obtain rfl := h.symm; exact hw
  | finishScan w' =>
    rw [step] at h
    cases hs : s.phase <;> rw [hs] at h <;> simp at h
    case scanning w'' =>
      obtain ⟨-, rfl⟩ := h
      exact hw
  | finishFinalize w' =>
    rw [step] at h
    cases hs : s.phase <;> rw [hs] at h <;> simp at h
    case finalizing w'' =>
      obtain ⟨-, rfl⟩ := h
      exact hw
  | ackPublish w' =>
    rw [step] at h
    cases hs : s.phase <;> rw [hs] at h <;> simp at h
    case publishing w'' =>
      obtain ⟨-, rfl⟩ := h
      exact hw
  | failPublish w' =>
    rw [step] at h
    cases hs : s.phase <;> rw [hs] at h <;> simp at h
    case publishing w'' =>
      obtain ⟨-, rfl⟩ := h
      exact hw
  | deleteWindow w' =>
    rw [step] at h
    cases hs : s.phase <;> rw [hs] at h <;> simp at h
    case reclaiming w'' =>
      obtain ⟨-, rfl⟩ := h
      exact List.mem_cons_of_mem _ hw

lemma run_preserves_clean (tr : List Action) :
    ∀ (s s' : SysState), run s tr = some s' → ReclaimedClean s →
      ReclaimedClean s' := by
  induction tr with
  | nil =>
    intro s s' h hc
    obtain rfl := (Option.some.injEq _ _).mp h
    exact hc
  | cons a tr ih =>
    intro s s' h hc
    simp only [run] at h
    rcases hstep : step s a with _ | s₁
    · simp [hstep] at h
    · simp only [hstep] at h
      exact ih s₁ s' h (step_preserves_clean s a s₁ hstep hc)

lemma run_reclaimed_mono (tr : List Action) :
    ∀ (s s' : SysState), run s tr = some s' → ∀ w ∈ s.reclaimed,
      w ∈ s'.reclaimed := by
  induction tr with
  | nil =>
    intro s s' h w hw
    obtain rfl := (Option.some.injEq _ _).mp h
    exact hw
  | cons a tr ih =>
    intro s s' h w hw
    simp only [run] at h
    rcases hstep : step s a with _ | s₁
    · simp [hstep] at h
    · simp only [hstep] at h
      exact ih s₁ s' h w (step_reclaimed_mono s a s₁ hstep w hw)

/-- C10: the reclaim protocol.  In every valid execution from the initial
state, (i) a `DeleteWindow` for window `w` happens only after the sink
acknowledged the publish of `w`; (ii) once a window's reclaim has
completed it stays reclaimed and every later `ScanWindow` of it is empty;
(iii) no write is accepted into a window whose reclaim has completed (nor
into one currently being harvested). -/
theorem harvester_reclaim_protocol :
    (∀ (pre post : List Action) (w : Nat) (s' : SysState),
        run init (pre ++ Action.deleteWindow w :: post) = some s' →
        Action.ackPublish w ∈ pre) ∧
    (∀ (pre post : List Action) (w : Nat) (sp s' : SysState),
        run init pre = some sp → w ∈ sp.reclaimed → run sp post = some s' →
        w ∈ s'.reclaimed ∧ scanWindow s' w = []) ∧
    (∀ (pre : List Action) (w e : Nat) (post : List Action) (s' : SysState),
        run init (pre ++ Action.write w e :: post) = some s' →
        ∃ sp, run init pre = some sp ∧ w ∉ sp.reclaimed ∧
          harvestTarget sp.phase ≠ some w) := by
  refine ⟨?_, ?_, ?_⟩
  · intro pre post w s' h
    rcases delete_requires_ack pre init w post s' h with hmem | hph
    · exact hmem
    · simp [init] at hph
  · intro pre post w sp s' hpre hw hpost
    have hclean₀ : ReclaimedClean init := by
      intro w' hw'
      simp [init] at hw'
    have hcleanp := run_preserves_clean pre init sp hpre hclean₀
    have hclean' := run_preserves_clean post sp s' hpost hcleanp
    have hw' := run_reclaimed_mono post sp s' hpost w hw
    refine ⟨hw', ?_⟩
    rw [scanWindow, List.filter_eq_nil_iff]
    intro kv hkv
    simpa using hclean' w hw' kv hkv
  · intro pre w e post s' h
    rw [run_append] at h
    rcases hpre : run init pre with _ | sp
    · rw [hpre] at h; simp at h
    · rw [hpre] at h
      simp only [run] at h
      rcases hstep : step sp (Action.write w e) with _ | s₁
      · simp [hstep] at h
      · rw [step] at hstep
        by_cases hg : w ∈ sp.reclaimed ∨ harvestTarget sp.phase = some w
        · simp [hg] at hstep
        · exact ⟨sp, rfl, (not_or.mp hg).1, (not_or.mp hg).2⟩

/-- Witness for C10: a concrete execution that writes, harvests with a
sink acknowledgment, and reclaims window `0`. -/
theorem harvester_reclaim_protocol_witness :
    Action.ackPublish 0 ∈
      [Action.write 0 5, Action.startScan 0, Action.finishScan 0,
       Action.finishFinalize 0, Action.ackPublish 0] :=
  harvester_reclaim_protocol.1
    [Action.write 0 5, Action.startScan 0, Action.finishScan 0,
     Action.finishFinalize 0, Action.ackPublish 0] [] 0
    ⟨[], [0], Phase.idle⟩ (by decide)

end Harvester
